import Mathlib

/-!
Shallow embedding of the Mini-PL compiler front-end (scanner and parser)
from VoxWave/Compilers2017, together with theorems settling the claims
about it.  Every definition mirrors the corresponding Rust item in
`src/scanner.rs`, `src/parser/mod.rs` or `src/util.rs`; Rust `String`
buffers are modelled as `List Char` (push = append at the end, pop =
`getLast?` / `dropLast`), `Vec<T>` as `List T` (push at the end),
`usize` as `Nat`, `BigInt` as `Int`, and the `panic!` paths as
`Except` errors.  `char::is_alphanumeric` is modelled by the ASCII
`Char.isAlphanum`; every input considered here is ASCII.
-/

namespace MiniPL

/-- `util::Direction`. -/
inductive Direction
  | Left
  | Right
deriving DecidableEq, Repr

/-- `scanner::Operator`. -/
inductive Operator
  | Plus
  | Minus
  | Multiply
  | Divide
  | LessThan
  | Equals
  | And
  | Not
deriving DecidableEq, Repr

/-- `scanner::KeyWord`. -/
inductive KeyWord
  | Var
  | For
  | End
  | In
  | Do
  | Read
  | Print
  | Int
  | String
  | Bool
  | Assert
deriving DecidableEq, Repr

/-- `scanner::Token`. -/
inductive Token
  | Bracket (d : Direction)
  | Identifier (s : String)
  | StringLiteral (s : String)
  | Number (n : Int)
  | Semicolon
  | Colon
  | Assignment
  | Operator (o : Operator)
  | KeyWord (k : KeyWord)
  | Range
deriving DecidableEq, Repr

/-- `scanner::ScanMode`. -/
inductive ScanMode
  | Normal
  | StringLiteral
  | Number
  | PossibleComment
  | LineComment
  | BlockComment
  | Other
  | Escape
deriving DecidableEq, Repr

/-- The `panic!` sites of `scanner.rs`, as error values. -/
inductive ScanError
  | escapeNotSupported (c : Char)
  | hexEscapeTooLong
  | hexEscapeNeedsDigit
  | notValidUnicodeHexDigit (u c : Char)
  | invalidCodepoint
  | unreachableEscape
  | numberParseFailed
deriving DecidableEq, Repr

/-- `scanner::Scanner` (the struct fields). -/
structure Scanner where
  tokens : List Token
  scan_mode : ScanMode
  buffer : List Char
  escape_buffer : List Char
  block_comment_counter : Nat
deriving DecidableEq, Repr

/-- `Scanner::new`. -/
def Scanner.new : Scanner :=
  { tokens := [], scan_mode := .Normal, buffer := [], escape_buffer := [],
    block_comment_counter := 0 }

/-- The `"` character (written numerically to keep literals simple). -/
def quoteChar : Char := Char.ofNat 34

/-- The `\` character. -/
def backslashChar : Char := Char.ofNat 92

/-- The `'` character. -/
def singleQuoteChar : Char := Char.ofNat 39

/-- `self.tokens.push(t)`. -/
def pushTok (s : Scanner) (t : Token) : Scanner :=
  { s with tokens := s.tokens ++ [t] }

/-- Rust hex-digit character classes `'0'...'9' | 'a'...'f' | 'A'...'F'`. -/
def isHexDigitChar (c : Char) : Bool :=
  c.isDigit || ('a' ≤ c && c ≤ 'f') || ('A' ≤ c && c ≤ 'F')

/-- Numeric value of one hex digit. -/
def hexDigitVal (c : Char) : Nat :=
  if c.isDigit then c.toNat - 48
  else if 'a' ≤ c && c ≤ 'f' then c.toNat - 87
  else c.toNat - 55

/-- Value of a string of hex digits (`from_str_radix(_, 16)`). -/
def hexVal (b : List Char) : Nat :=
  b.foldl (fun a c => a * 16 + hexDigitVal c) 0

/-- Value of a string of decimal digits. -/
def digitsToNat (b : List Char) : Nat :=
  b.foldl (fun a c => a * 10 + (c.toNat - 48)) 0

/-- Models `str::parse::<BigInt>()`: an optional sign followed by at least
one decimal digit; anything else fails. -/
def bigIntFromStr (b : List Char) : Option Int :=
  match b with
  | '+' :: rest =>
      if rest ≠ [] ∧ rest.all Char.isDigit then some (digitsToNat rest : Int) else none
  | '-' :: rest =>
      if rest ≠ [] ∧ rest.all Char.isDigit then some (-(digitsToNat rest : Int)) else none
  | _ =>
      if b ≠ [] ∧ b.all Char.isDigit then some (digitsToNat b : Int) else none

/-- Models `std::char::from_u32`: `none` exactly on surrogates and values
above `0x10FFFF`. -/
def fromU32 (n : Nat) : Option Char :=
  if n < 0xD800 ∨ (0xDFFF < n ∧ n ≤ 0x10FFFF) then some (Char.ofNat n) else none

/-- `Scanner::normal_scan`.  The Rust `match` pushes a token for the
single-character tokens and early-returns in the other arms; the arm
order of the source is kept. -/
def normal_scan (s : Scanner) (c : Char) : Scanner :=
  if c = '(' then pushTok s (.Bracket .Left)
  else if c = ')' then pushTok s (.Bracket .Right)
  else if c = ';' then pushTok s .Semicolon
  else if c = ':' then pushTok s .Colon
  else if c = '+' then pushTok s (.Operator .Plus)
  else if c = '-' then pushTok s (.Operator .Minus)
  else if c = '*' then pushTok s (.Operator .Multiply)
  else if c = '<' then pushTok s (.Operator .LessThan)
  else if c = '=' then pushTok s (.Operator .Equals)
  else if c = '&' then pushTok s (.Operator .And)
  else if c = '!' then pushTok s (.Operator .Not)
  else if c = quoteChar then { s with scan_mode := .StringLiteral }
  else if c = '/' then { s with scan_mode := .PossibleComment }
  else if c.isDigit then { s with buffer := s.buffer ++ [c], scan_mode := .Number }
  else if c = ' ' ∨ c = '\n' ∨ c = '\t' ∨ c = '\r' then s
  else { s with buffer := s.buffer ++ [c], scan_mode := .Other }

/-- `Scanner::string_scan`. -/
def string_scan (s : Scanner) (c : Char) : Scanner :=
  if c = backslashChar then { s with scan_mode := .Escape }
  else if c = quoteChar then
    { s with tokens := s.tokens ++ [.StringLiteral (String.mk s.buffer)],
             buffer := [], scan_mode := .Normal }
  else { s with buffer := s.buffer ++ [c] }

/-- `Scanner::escape_scan`.  Faithful to the source, including the fact
that after a complete `\u`/`\U` escape is decoded the escape buffer is
not cleared and the mode is left at `Escape`. -/
def escape_scan (s : Scanner) (c : Char) : Except ScanError Scanner :=
  if s.escape_buffer = [] then
    if c = 'a' then
      .ok { s with buffer := s.buffer ++ [Char.ofNat 7], escape_buffer := [],
                   scan_mode := .StringLiteral }
    else if c = 'b' then
      .ok { s with buffer := s.buffer ++ [Char.ofNat 8], escape_buffer := [],
                   scan_mode := .StringLiteral }
    else if c = 'f' then
      .ok { s with buffer := s.buffer ++ [Char.ofNat 12], escape_buffer := [],
                   scan_mode := .StringLiteral }
    else if c = 'n' then
      .ok { s with buffer := s.buffer ++ ['\n'], escape_buffer := [],
                   scan_mode := .StringLiteral }
    else if c = 'r' then
      .ok { s with buffer := s.buffer ++ ['\r'], escape_buffer := [],
                   scan_mode := .StringLiteral }
    else if c = 't' then
      .ok { s with buffer := s.buffer ++ ['\t'], escape_buffer := [],
                   scan_mode := .StringLiteral }
    else if c = 'v' then
      .ok { s with buffer := s.buffer ++ [Char.ofNat 11], escape_buffer := [],
                   scan_mode := .StringLiteral }
    else if c = backslashChar ∨ c = singleQuoteChar ∨ c = quoteChar ∨ c = '?' then
      .ok { s with buffer := s.buffer ++ [c], escape_buffer := [],
                   scan_mode := .StringLiteral }
    else if ('0' ≤ c ∧ c ≤ '8') ∨ c = 'x' ∨ c = 'U' ∨ c = 'u' then
      .ok { s with escape_buffer := s.escape_buffer ++ [c] }
    else .error (.escapeNotSupported c)
  else
    -- `self.escape_buffer.chars().next().unwrap()`: the buffer is nonempty
    -- here, and the Rust match on its first character is this if-chain.
    if s.escape_buffer.head? = some 'x' then
        (if isHexDigitChar c then
          if 2 < s.escape_buffer.length then .error .hexEscapeTooLong
          else .ok { s with escape_buffer := s.escape_buffer ++ [c] }
        else
          if s.escape_buffer.length < 2 then .error .hexEscapeNeedsDigit
          else
            -- one or two hex digits always fit in a `u8`, and every `u8`
            -- value is a valid `char`, so the Rust `expect`s cannot fire.
            let chr := Char.ofNat (hexVal s.escape_buffer.tail)
            if c = quoteChar then
              .ok { s with tokens := s.tokens ++
                              [.StringLiteral (String.mk (s.buffer ++ [chr]))],
                           buffer := [], escape_buffer := [], scan_mode := .Normal }
            else
              .ok { s with buffer := s.buffer ++ [chr], escape_buffer := [],
                           scan_mode := .StringLiteral })
    else if s.escape_buffer.head? = some 'U' then
        (if isHexDigitChar c then
          if (s.escape_buffer ++ [c]).length = 9 then
            match fromU32 (hexVal (s.escape_buffer ++ [c]).tail) with
            | some chr =>
                .ok { s with buffer := s.buffer ++ [chr],
                             escape_buffer := s.escape_buffer ++ [c] }
            | none => .error .invalidCodepoint
          else .ok { s with escape_buffer := s.escape_buffer ++ [c] }
        else .error (.notValidUnicodeHexDigit 'U' c))
    else if s.escape_buffer.head? = some 'u' then
        (if isHexDigitChar c then
          if (s.escape_buffer ++ [c]).length = 5 then
            match fromU32 (hexVal (s.escape_buffer ++ [c]).tail) with
            | some chr =>
                .ok { s with buffer := s.buffer ++ [chr],
                             escape_buffer := s.escape_buffer ++ [c] }
            | none => .error .invalidCodepoint
          else .ok { s with escape_buffer := s.escape_buffer ++ [c] }
        else .error (.notValidUnicodeHexDigit 'u' c))
    else .error .unreachableEscape

/-- `Scanner::number_scan`. -/
def number_scan (s : Scanner) (c : Char) : Except ScanError Scanner :=
  if c.isDigit then .ok { s with buffer := s.buffer ++ [c] }
  else
    match bigIntFromStr s.buffer with
    | some n =>
        .ok (normal_scan { s with tokens := s.tokens ++ [.Number n], buffer := [],
                                  scan_mode := .Normal } c)
    | none => .error .numberParseFailed

/-- `Scanner::eval_buffer`.  Note: the source pushes the keyword or
identifier token but does not clear `self.buffer`. -/
def eval_buffer (s : Scanner) : Scanner :=
  pushTok s
    (if s.buffer = "var".toList then .KeyWord .Var
     else if s.buffer = "end".toList then .KeyWord .End
     else if s.buffer = "for".toList then .KeyWord .For
     else if s.buffer = "in".toList then .KeyWord .In
     else if s.buffer = "do".toList then .KeyWord .Do
     else if s.buffer = "read".toList then .KeyWord .Read
     else if s.buffer = "print".toList then .KeyWord .Print
     else if s.buffer = "int".toList then .KeyWord .Int
     else if s.buffer = "string".toList then .KeyWord .String
     else if s.buffer = "bool".toList then .KeyWord .Bool
     else if s.buffer = "assert".toList then .KeyWord .Assert
     else .Identifier (String.mk s.buffer))

/-- `Scanner::identifier_and_keyword_scan`. -/
def identifier_and_keyword_scan (s : Scanner) (c : Char) : Scanner :=
  if c.isAlphanum ∨ c = '_' then { s with buffer := s.buffer ++ [c] }
  else normal_scan { eval_buffer s with scan_mode := .Normal } c

/-- `Scanner::check_for_comment`. -/
def check_for_comment (s : Scanner) (c : Char) : Scanner :=
  if c = '/' then { s with scan_mode := .LineComment }
  else if c = '*' then
    { s with block_comment_counter := s.block_comment_counter + 1,
             scan_mode := .BlockComment }
  else { pushTok s (.Operator .Divide) with scan_mode := .Normal }

/-- `Scanner::block_comment_handling`.  `buffer.pop()` removes the last
character; when the popped character equals `c` neither is put back,
otherwise the pop is undone and `c` is appended. -/
def block_comment_handling (s : Scanner) (c : Char) : Scanner :=
  if c = '*' ∨ c = '/' then
    let buf := if s.buffer.getLast? = some c then s.buffer.dropLast
               else s.buffer ++ [c]
    if buf = ['/', '*'] then
      { s with block_comment_counter := s.block_comment_counter + 1, buffer := [] }
    else if buf = ['*', '/'] then
      let k := s.block_comment_counter - 1
      if k = 0 then
        { s with block_comment_counter := k, buffer := [], scan_mode := .Normal }
      else { s with block_comment_counter := k, buffer := [] }
    else { s with buffer := buf }
  else { s with buffer := [] }

/-- `Scanner::line_comment_handling`. -/
def line_comment_handling (s : Scanner) (c : Char) : Scanner :=
  if c = '\n' then { s with scan_mode := .Normal } else s

/-- One iteration of the loop body of `Scanner::scan`. -/
def scanStep (s : Scanner) (c : Char) : Except ScanError Scanner :=
  match s.scan_mode with
  | .Normal => .ok (normal_scan s c)
  | .StringLiteral => .ok (string_scan s c)
  | .Number => number_scan s c
  | .PossibleComment => .ok (check_for_comment s c)
  | .LineComment => .ok (line_comment_handling s c)
  | .BlockComment => .ok (block_comment_handling s c)
  | .Other => .ok (identifier_and_keyword_scan s c)
  | .Escape => escape_scan s c

/-- The character loop of `Scanner::scan`. -/
def scanChars (s : Scanner) : List Char → Except ScanError Scanner
  | [] => .ok s
  | c :: rest =>
      match scanStep s c with
      | .ok s' => scanChars s' rest
      | .error e => .error e

/-- `Scanner::scan`: runs the loop and returns `self.tokens.clone()`
together with the mutated scanner (`&mut self` in the source). -/
def scan (s : Scanner) (source : List Char) : Except ScanError (List Token × Scanner) :=
  (scanChars s source).map fun s' => (s'.tokens, s')

/-! ## The parser (`src/parser/mod.rs`) -/

/-- `parser::Type` (Lean reserves the word `Type`). -/
inductive Ty
  | Int
  | Str
  | Bool
deriving DecidableEq, Repr

/-- `parser::BinaryOperator`. -/
inductive BinaryOperator
  | Plus
  | Minus
  | Multiply
  | Divide
  | LessThan
  | Equals
  | And
deriving DecidableEq, Repr

/-- `parser::UnaryOperator`. -/
inductive UnaryOperator
  | Not
deriving DecidableEq, Repr

mutual

/-- `parser::Expression`. -/
inductive Expression
  | Binary (l : Operand) (op : BinaryOperator) (r : Operand)
  | Unary (op : UnaryOperator) (o : Operand)
  | Singleton (o : Operand)

/-- `parser::Operand` (`Box<Expression>` becomes a plain nested value). -/
inductive Operand
  | Int (n : «Int»)
  | StringLiteral (s : «String»)
  | Bool
  | Expr (e : Expression)

end

/-- `parser::Statement`. -/
inductive Statement
  | Declaration (name : String) (ty : Ty) (init : Option Expression)
  | Assignment (name : String) (e : Expression)
  | For (name : String) (lo hi : Expression) (body : List Statement)
  | Read (name : String)
  | Print (e : Expression)
  | Assert (e : Expression)

/-- The `panic!` / `expect` sites of `parser/mod.rs`, as error values. -/
inductive ParseError
  | statementCannotStartWith (k : KeyWord)
  | unexpectedToken (t : Token)
  | expectedIdentifier (t : Token)
  | expectedColon (t : Token)
  | expectedTypeSignature (t : Token)
  | expectedAssignmentToken (t : Token)
  | unreachableAssignmentBuffer
  | unexpectedTokenDuring (t : Token)
  | expectedIn
  | incorrectForLoopRange
  | unreachableForLoopBuffer
  | moreThanOneRange
  | invalidTokenInForExpression
  | endForNoLoops
  | expectedForAfterEnd (t : Token)
  | expectedIdentifierAfterRead
  | expectedSemicolon (t : Token)
deriving DecidableEq, Repr

/-- An entry of `Parser::for_buffer`: loop variable, from- and
to-expression, and the accumulating body. -/
abbrev Frame := String × Expression × Expression × List Statement

/-- The fields of `parser::Parser`.  The output sink `statements`
(`O : Sink<Statement>`) is modelled as a `Vec`, i.e. a list pushed at
the end, exactly as `impl Sink for Vec` does. -/
structure ParserState where
  buffer : List Token
  for_buffer : List Frame
  for_range_pointer : Nat
  statements : List Statement

/-- `Parser::new` applied to an empty sink. -/
def ParserState.new : ParserState :=
  { buffer := [], for_buffer := [], for_range_pointer := 0, statements := [] }

/-- The states of the parser dispatch machine (the source uses the
function pointers themselves as states). -/
inductive PState
  | normal
  | variableDefinition
  | assignment
  | forLoop
  | expectEndFor
  | readState
  | printState
  | assertState
  | expectSemicolon
deriving DecidableEq, Repr

/-- `Parser::parse_expression` — in the source this is a stub that
ignores its token slice. -/
def parse_expression (tokens : List Token) : Expression :=
  Expression.Singleton (Operand.Int 1)

/-- `Parser::handle_statement`.  `for_buffer[len-1].3.push` appends to
the last frame; the `is_empty` test is the `getLast? = none` case. -/
def handle_statement (p : ParserState) (st : Statement) : ParserState :=
  match p.for_buffer.getLast? with
  | none => { p with statements := p.statements ++ [st], buffer := [] }
  | some (i, lo, hi, body) =>
      { p with for_buffer := p.for_buffer.dropLast ++ [(i, lo, hi, body ++ [st])],
               buffer := [] }

/-- `Parser::normal_parse`. -/
def normal_parse (p : ParserState) (t : Token) : Except ParseError (ParserState × PState) :=
  match t with
  | .Identifier _ => .ok ({ p with buffer := p.buffer ++ [t] }, .assignment)
  | .KeyWord kw =>
      match kw with
      | .Var => .ok (p, .variableDefinition)
      | .For => .ok (p, .forLoop)
      | .Read => .ok (p, .readState)
      | .Print => .ok (p, .printState)
      | .Assert => .ok (p, .assertState)
      | .End => .ok (p, .expectEndFor)
      | _ => .error (.statementCannotStartWith kw)
  | .Semicolon => .ok (p, .normal)
  | _ => .error (.unexpectedToken t)

/-- `Parser::variable_definition_parse`.  The source's match pushes (or
panics) and every arm falls through to `State(variable_definition_parse)`;
the arm for buffers of length ≥ 3 does nothing. -/
def variable_definition_parse (p : ParserState) (t : Token) :
    Except ParseError (ParserState × PState) :=
  match p.buffer.length with
  | 0 =>
      match t with
      | .Identifier _ => .ok ({ p with buffer := p.buffer ++ [t] }, .variableDefinition)
      | _ => .error (.expectedIdentifier t)
  | 1 =>
      match t with
      | .Colon => .ok ({ p with buffer := p.buffer ++ [t] }, .variableDefinition)
      | _ => .error (.expectedColon t)
  | 2 =>
      match t with
      | .KeyWord .String | .KeyWord .Int =>
          .ok ({ p with buffer := p.buffer ++ [t] }, .variableDefinition)
      | _ => .error (.expectedTypeSignature t)
  | _ + 3 => .ok (p, .variableDefinition)

/-- `Parser::assignment_parse`. -/
def assignment_parse (p : ParserState) (t : Token) :
    Except ParseError (ParserState × PState) :=
  if p.buffer.length = 1 then
    match t with
    | .Assignment => .ok ({ p with buffer := p.buffer ++ [t] }, .assignment)
    | _ => .error (.expectedAssignmentToken t)
  else
    match t with
    | .Semicolon =>
        match p.buffer.head? with
        | some (.Identifier identifier) =>
            let statement := Statement.Assignment identifier
              (parse_expression (p.buffer.drop 2))
            .ok (handle_statement p statement, .normal)
        | _ => .error .unreachableAssignmentBuffer
    | .Bracket _ | .Operator _ | .Identifier _ | .Number _ | .StringLiteral _ =>
        .ok ({ p with buffer := p.buffer ++ [t] }, .assignment)
    | _ => .error (.unexpectedTokenDuring t)

/-- `Parser::for_loop_parse`.  `buffer[2..frp]` is `drop 2` then
`take (frp - 2)`; `buffer[frp+1..len]` is `drop (frp + 1)`. -/
def for_loop_parse (p : ParserState) (t : Token) :
    Except ParseError (ParserState × PState) :=
  match p.buffer.length with
  | 0 =>
      match t with
      | .Identifier _ => .ok ({ p with buffer := p.buffer ++ [t] }, .forLoop)
      | _ => .error (.expectedIdentifier t)
  | 1 =>
      match t with
      | .KeyWord .In => .ok ({ p with buffer := p.buffer ++ [t] }, .forLoop)
      | _ => .error .expectedIn
  | _ + 2 =>
      match t with
      | .KeyWord .Do =>
          if p.for_range_pointer < 3 then .error .incorrectForLoopRange
          else
            match p.buffer.head? with
            | some (.Identifier i) =>
                .ok ({ p with
                        for_buffer := p.for_buffer ++
                          [(i,
                            parse_expression
                              ((p.buffer.drop 2).take (p.for_range_pointer - 2)),
                            parse_expression (p.buffer.drop (p.for_range_pointer + 1)),
                            [])],
                        for_range_pointer := 0,
                        buffer := [] }, .normal)
            | _ => .error .unreachableForLoopBuffer
      | .Range =>
          if p.for_range_pointer = 0 then
            .ok ({ p with for_range_pointer := p.buffer.length,
                          buffer := p.buffer ++ [t] }, .forLoop)
          else .error .moreThanOneRange
      | .Bracket _ | .Operator _ | .Identifier _ | .Number _ | .StringLiteral _ =>
          .ok ({ p with buffer := p.buffer ++ [t] }, .forLoop)
      | _ => .error .invalidTokenInForExpression

/-- `Parser::expect_end_for`: pops the top frame (panic when the stack is
empty), builds the `For` statement and routes it with
`handle_statement`. -/
def expect_end_for (p : ParserState) (t : Token) :
    Except ParseError (ParserState × PState) :=
  match t with
  | .KeyWord .For =>
      match p.for_buffer.getLast? with
      | none => .error .endForNoLoops
      | some (identifier, lo, hi, statements) =>
          let p' := { p with for_buffer := p.for_buffer.dropLast }
          .ok (handle_statement p' (.For identifier lo hi statements), .expectSemicolon)
  | _ => .error (.expectedForAfterEnd t)

/-- `Parser::read_parse`. -/
def read_parse (p : ParserState) (t : Token) :
    Except ParseError (ParserState × PState) :=
  match t with
  | .Identifier i => .ok (handle_statement p (.Read i), .normal)
  | _ => .error .expectedIdentifierAfterRead

/-- `Parser::print_parse` — a stub in the source: ignores the token and
stays in the same state. -/
def print_parse (p : ParserState) (t : Token) :
    Except ParseError (ParserState × PState) :=
  .ok (p, .printState)

/-- `Parser::assert_parse` — a stub in the source. -/
def assert_parse (p : ParserState) (t : Token) :
    Except ParseError (ParserState × PState) :=
  .ok (p, .assertState)

/-- `Parser::expect_semicolon`. -/
def expect_semicolon (p : ParserState) (t : Token) :
    Except ParseError (ParserState × PState) :=
  match t with
  | .Semicolon => .ok (p, .normal)
  | _ => .error (.expectedSemicolon t)

/-- Dispatch on the current state, i.e. the call `state(&mut parser, t)`. -/
def parseStep (p : ParserState) (st : PState) (t : Token) :
    Except ParseError (ParserState × PState) :=
  match st with
  | .normal => normal_parse p t
  | .variableDefinition => variable_definition_parse p t
  | .assignment => assignment_parse p t
  | .forLoop => for_loop_parse p t
  | .expectEndFor => expect_end_for p t
  | .readState => read_parse p t
  | .printState => print_parse p t
  | .assertState => assert_parse p t
  | .expectSemicolon => expect_semicolon p t

/-- The `while let Some(t) = tokens.take()` loop of `parser::parse`. -/
def parseTokens (p : ParserState) (st : PState) :
    List Token → Except ParseError (ParserState × PState)
  | [] => .ok (p, st)
  | t :: rest =>
      match parseStep p st t with
      | .ok (p', st') => parseTokens p' st' rest
      | .error e => .error e

/-- `parser::parse` with a fresh parser and an empty `Vec` sink; returns
the statements the sink received. -/
def parse (tokens : List Token) : Except ParseError (List Statement) :=
  (parseTokens ParserState.new .normal tokens).map fun r => r.1.statements

/-- The safety invariant of the block-comment machinery: whenever the
scanner is in `BlockComment` mode its nesting counter is positive. -/
def CounterInv (s : Scanner) : Prop :=
  s.scan_mode = .BlockComment → 1 ≤ s.block_comment_counter

instance (s : Scanner) : Decidable (CounterInv s) := by
  unfold CounterInv; infer_instance

/-! ## Claim theorems -/

/-- The three facts about one `normal_scan` step that the development
needs: it leaves the nesting counter unchanged, it never switches into
`BlockComment` mode on its own, and it only appends to the token list
(prepending tokens to the input commutes with the step). -/
theorem normal_scan_shape (s : Scanner) (c : Char) (t : List Token) :
    (normal_scan s c).block_comment_counter = s.block_comment_counter ∧
    ((normal_scan s c).scan_mode = .BlockComment → s.scan_mode = .BlockComment) ∧
    normal_scan { s with tokens := t ++ s.tokens } c =
      { normal_scan s c with tokens := t ++ (normal_scan s c).tokens } := by
  unfold normal_scan pushTok
  by_cases h1 : c = '('
  · simp [if_pos h1, List.append_assoc]
  simp only [if_neg h1]
  by_cases h2 : c = ')'
  · simp [if_pos h2, List.append_assoc]
  simp only [if_neg h2]
  by_cases h3 : c = ';'
  · simp [if_pos h3, List.append_assoc]
  simp only [if_neg h3]
  by_cases h4 : c = ':'
  · simp [if_pos h4, List.append_assoc]
  simp only [if_neg h4]
  by_cases h5 : c = '+'
  · simp [if_pos h5, List.append_assoc]
  simp only [if_neg h5]
  by_cases h6 : c = '-'
  · simp [if_pos h6, List.append_assoc]
  simp only [if_neg h6]
  by_cases h7 : c = '*'
  · simp [if_pos h7, List.append_assoc]
  simp only [if_neg h7]
  by_cases h8 : c = '<'
  · simp [if_pos h8, List.append_assoc]
  simp only [if_neg h8]
  by_cases h9 : c = '='
  · simp [if_pos h9, List.append_assoc]
  simp only [if_neg h9]
  by_cases h10 : c = '&'
  · simp [if_pos h10, List.append_assoc]
  simp only [if_neg h10]
  by_cases h11 : c = '!'
  · simp [if_pos h11, List.append_assoc]
  simp only [if_neg h11]
  by_cases h12 : c = quoteChar
  · simp [if_pos h12, List.append_assoc]
  simp only [if_neg h12]
  by_cases h13 : c = '/'
  · simp [if_pos h13, List.append_assoc]
  simp only [if_neg h13]
  by_cases h14 : c.isDigit
  · simp [if_pos h14, List.append_assoc]
  simp only [if_neg h14]
  by_cases h15 : c = ' ' ∨ c = '\n' ∨ c = '\t' ∨ c = '\r'
  · simp [if_pos h15, List.append_assoc]
  simp only [if_neg h15]
  simp [List.append_assoc]

/-- `normal_scan` never touches the nesting counter and never enters
`BlockComment` mode on its own. -/
theorem normal_scan_inv (s : Scanner) (c : Char) :
    (CounterInv s → CounterInv (normal_scan s c)) ∧
    (s.block_comment_counter ≠ 0 → (normal_scan s c).block_comment_counter = 0 →
      (normal_scan s c).scan_mode = .Normal) := by
  obtain ⟨hk, hm, -⟩ := normal_scan_shape s c []
  constructor
  · intro hA hB
    rw [hk]
    exact hA (hm hB)
  · intro hA hB
    rw [hk] at hB
    exact absurd hB hA

/-- `string_scan` preserves the counter invariant. -/
theorem string_scan_inv (s : Scanner) (c : Char) :
    (CounterInv s → CounterInv (string_scan s c)) ∧
    (s.block_comment_counter ≠ 0 → (string_scan s c).block_comment_counter = 0 →
      (string_scan s c).scan_mode = .Normal) := by
  unfold string_scan CounterInv
  split_ifs <;> constructor <;> intro hA hB <;>
    first | rfl | exact hA hB | exact ScanMode.noConfusion hB | exact absurd hB hA
          | exact hB.elim

/-- `line_comment_handling` preserves the counter invariant. -/
theorem line_comment_handling_inv (s : Scanner) (c : Char) :
    (CounterInv s → CounterInv (line_comment_handling s c)) ∧
    (s.block_comment_counter ≠ 0 →
      (line_comment_handling s c).block_comment_counter = 0 →
      (line_comment_handling s c).scan_mode = .Normal) := by
  unfold line_comment_handling CounterInv
  split_ifs <;> constructor <;> intro hA hB <;>
    first | rfl | exact hA hB | exact ScanMode.noConfusion hB | exact absurd hB hA
          | exact hB.elim

/-- `check_for_comment` enters `BlockComment` only while incrementing
the counter. -/
theorem check_for_comment_inv (s : Scanner) (c : Char) :
    (CounterInv s → CounterInv (check_for_comment s c)) ∧
    (s.block_comment_counter ≠ 0 →
      (check_for_comment s c).block_comment_counter = 0 →
      (check_for_comment s c).scan_mode = .Normal) := by
  unfold check_for_comment pushTok
  split_ifs
  · exact ⟨fun hA hB => ScanMode.noConfusion hB, fun hA hB => absurd hB hA⟩
  · exact ⟨fun _ _ => Nat.le_add_left 1 _, fun _ hB => absurd hB (Nat.succ_ne_zero _)⟩
  · exact ⟨fun hA hB => ScanMode.noConfusion hB, fun _ _ => rfl⟩

/-- `block_comment_handling` preserves the counter invariant, and its
decrement reaches 0 only together with the switch back to `Normal`. -/
theorem block_comment_handling_inv (s : Scanner) (c : Char) :
    (CounterInv s → CounterInv (block_comment_handling s c)) ∧
    (s.block_comment_counter ≠ 0 →
      (block_comment_handling s c).block_comment_counter = 0 →
      (block_comment_handling s c).scan_mode = .Normal) := by
  simp only [block_comment_handling]
  split_ifs <;>
    first
      | exact ⟨fun hA hB => hA hB, fun hA hB => absurd hB hA⟩
      | exact ⟨fun _ _ => Nat.le_add_left 1 _,
               fun _ hB => absurd hB (Nat.succ_ne_zero _)⟩
      | exact ⟨fun hA hB => ScanMode.noConfusion hB, fun _ _ => rfl⟩
      | exact ⟨fun _ _ => Nat.one_le_iff_ne_zero.mpr (by assumption),
               fun _ hB => absurd hB (by assumption)⟩

/-- `identifier_and_keyword_scan` preserves the counter invariant. -/
theorem identifier_and_keyword_scan_inv (s : Scanner) (c : Char) :
    (CounterInv s → CounterInv (identifier_and_keyword_scan s c)) ∧
    (s.block_comment_counter ≠ 0 →
      (identifier_and_keyword_scan s c).block_comment_counter = 0 →
      (identifier_and_keyword_scan s c).scan_mode = .Normal) := by
  unfold identifier_and_keyword_scan
  split_ifs
  · unfold CounterInv
    constructor <;> intro hA hB <;>
      first | exact hA hB | exact absurd hB hA
  · have hn := normal_scan_inv { eval_buffer s with scan_mode := .Normal } c
    constructor
    · intro _
      exact hn.1 fun hh => ScanMode.noConfusion hh
    · intro hA hB
      exact hn.2 hA hB

/-- `number_scan` preserves the counter invariant. -/
theorem number_scan_inv (s : Scanner) (c : Char) (s' : Scanner)
    (h : number_scan s c = .ok s') :
    (CounterInv s → CounterInv s') ∧
    (s.block_comment_counter ≠ 0 → s'.block_comment_counter = 0 →
      s'.scan_mode = .Normal) := by
  unfold number_scan at h
  repeat' split at h
  all_goals first
    | exact Except.noConfusion h
    | (injection h with h; subst h;
       unfold CounterInv; constructor <;> intro hA hB <;>
         first | exact hA hB | exact absurd hB hA)
    | (injection h with h; subst h;
       exact ⟨fun _ => (normal_scan_inv _ c).1 fun hh => ScanMode.noConfusion hh,
              fun hA hB => (normal_scan_inv _ c).2 hA hB⟩)

/-- The facts about one `escape_scan` step that the development needs:
prepending tokens commutes with the step, and a successful step leaves
the nesting counter unchanged and never switches into `BlockComment`. -/
theorem escape_scan_shape (s : Scanner) (c : Char) (t : List Token) :
    escape_scan { s with tokens := t ++ s.tokens } c =
      (escape_scan s c).map (fun r => { r with tokens := t ++ r.tokens }) ∧
    ∀ s', escape_scan s c = .ok s' →
      s'.block_comment_counter = s.block_comment_counter ∧
      (s'.scan_mode = .BlockComment → s.scan_mode = .BlockComment) := by
  unfold escape_scan
  dsimp only
  by_cases he : s.escape_buffer = []
  · simp only [if_pos he]
    by_cases hc1 : c = 'a'
    · simp only [if_pos hc1]
      exact ⟨rfl, fun s' h => by
        injection h with h; subst h; exact ⟨rfl, fun hm => ScanMode.noConfusion hm⟩⟩
    simp only [if_neg hc1]
    by_cases hc2 : c = 'b'
    · simp only [if_pos hc2]
      exact ⟨rfl, fun s' h => by
        injection h with h; subst h; exact ⟨rfl, fun hm => ScanMode.noConfusion hm⟩⟩
    simp only [if_neg hc2]
    by_cases hc3 : c = 'f'
    · simp only [if_pos hc3]
      exact ⟨rfl, fun s' h => by
        injection h with h; subst h; exact ⟨rfl, fun hm => ScanMode.noConfusion hm⟩⟩
    simp only [if_neg hc3]
    by_cases hc4 : c = 'n'
    · simp only [if_pos hc4]
      exact ⟨rfl, fun s' h => by
        injection h with h; subst h; exact ⟨rfl, fun hm => ScanMode.noConfusion hm⟩⟩
    simp only [if_neg hc4]
    by_cases hc5 : c = 'r'
    · simp only [if_pos hc5]
      exact ⟨rfl, fun s' h => by
        injection h with h; subst h; exact ⟨rfl, fun hm => ScanMode.noConfusion hm⟩⟩
    simp only [if_neg hc5]
    by_cases hc6 : c = 't'
    · simp only [if_pos hc6]
      exact ⟨rfl, fun s' h => by
        injection h with h; subst h; exact ⟨rfl, fun hm => ScanMode.noConfusion hm⟩⟩
    simp only [if_neg hc6]
    by_cases hc7 : c = 'v'
    · simp only [if_pos hc7]
      exact ⟨rfl, fun s' h => by
        injection h with h; subst h; exact ⟨rfl, fun hm => ScanMode.noConfusion hm⟩⟩
    simp only [if_neg hc7]
    by_cases hc8 : c = backslashChar ∨ c = singleQuoteChar ∨ c = quoteChar ∨ c = '?'
    · simp only [if_pos hc8]
      exact ⟨rfl, fun s' h => by
        injection h with h; subst h; exact ⟨rfl, fun hm => ScanMode.noConfusion hm⟩⟩
    simp only [if_neg hc8]
    by_cases hc9 : ('0' ≤ c ∧ c ≤ '8') ∨ c = 'x' ∨ c = 'U' ∨ c = 'u'
    · simp only [if_pos hc9]
      exact ⟨rfl, fun s' h => by
        injection h with h; subst h; exact ⟨rfl, fun hm => hm⟩⟩
    simp only [if_neg hc9]
    exact ⟨rfl, fun s' h => Except.noConfusion h⟩
  · simp only [if_neg he]
    by_cases hx : s.escape_buffer.head? = some 'x'
    · simp only [if_pos hx]
      by_cases hh : isHexDigitChar c
      · simp only [if_pos hh]
        by_cases hl : 2 < s.escape_buffer.length
        · simp only [if_pos hl]
          exact ⟨rfl, fun s' h => Except.noConfusion h⟩
        simp only [if_neg hl]
        exact ⟨rfl, fun s' h => by
          injection h with h; subst h; exact ⟨rfl, fun hm => hm⟩⟩
      · simp only [if_neg hh]
        by_cases hl2 : s.escape_buffer.length < 2
        · simp only [if_pos hl2]
          exact ⟨rfl, fun s' h => Except.noConfusion h⟩
        simp only [if_neg hl2]
        by_cases hq : c = quoteChar
        · simp only [if_pos hq]
          refine ⟨by simp [List.append_assoc, Except.map], fun s' h => ?_⟩
          injection h with h; subst h
          exact ⟨rfl, fun hm => ScanMode.noConfusion hm⟩
        simp only [if_neg hq]
        exact ⟨rfl, fun s' h => by
          injection h with h; subst h; exact ⟨rfl, fun hm => ScanMode.noConfusion hm⟩⟩
    simp only [if_neg hx]
    by_cases hU : s.escape_buffer.head? = some 'U'
    · simp only [if_pos hU]
      by_cases hh : isHexDigitChar c
      · simp only [if_pos hh]
        by_cases hl : (s.escape_buffer ++ [c]).length = 9
        · simp only [if_pos hl]
          cases hcp : fromU32 (hexVal (s.escape_buffer ++ [c]).tail) with
          | some chr =>
              simp only [hcp]
              exact ⟨rfl, fun s' h => by
                injection h with h; subst h; exact ⟨rfl, fun hm => hm⟩⟩
          | none =>
              simp only [hcp]
              exact ⟨rfl, fun s' h => Except.noConfusion h⟩
        simp only [if_neg hl]
        exact ⟨rfl, fun s' h => by
          injection h with h; subst h; exact ⟨rfl, fun hm => hm⟩⟩
      · simp only [if_neg hh]
        exact ⟨rfl, fun s' h => Except.noConfusion h⟩
    simp only [if_neg hU]
    by_cases hu : s.escape_buffer.head? = some 'u'
    · simp only [if_pos hu]
      by_cases hh : isHexDigitChar c
      · simp only [if_pos hh]
        by_cases hl : (s.escape_buffer ++ [c]).length = 5
        · simp only [if_pos hl]
          cases hcp : fromU32 (hexVal (s.escape_buffer ++ [c]).tail) with
          | some chr =>
              simp only [hcp]
              exact ⟨rfl, fun s' h => by
                injection h with h; subst h; exact ⟨rfl, fun hm => hm⟩⟩
          | none =>
              simp only [hcp]
              exact ⟨rfl, fun s' h => Except.noConfusion h⟩
        simp only [if_neg hl]
        exact ⟨rfl, fun s' h => by
          injection h with h; subst h; exact ⟨rfl, fun hm => hm⟩⟩
      · simp only [if_neg hh]
        exact ⟨rfl, fun s' h => Except.noConfusion h⟩
    simp only [if_neg hu]
    exact ⟨rfl, fun s' h => Except.noConfusion h⟩

/-- `escape_scan` preserves the counter invariant. -/
theorem escape_scan_inv (s : Scanner) (c : Char) (s' : Scanner)
    (h : escape_scan s c = .ok s') :
    (CounterInv s → CounterInv s') ∧
    (s.block_comment_counter ≠ 0 → s'.block_comment_counter = 0 →
      s'.scan_mode = .Normal) := by
  obtain ⟨hk, hm⟩ := (escape_scan_shape s c []).2 s' h
  constructor
  · intro hA hB
    rw [hk]
    exact hA (hm hB)
  · intro hA hB
    rw [hk] at hB
    exact absurd hB hA

/-- One scanner step preserves `CounterInv`, and the counter can only
become 0 in the same step that returns the mode to `Normal`. -/
theorem scanStep_counter (s : Scanner) (c : Char) (s' : Scanner)
    (h : scanStep s c = .ok s') :
    (CounterInv s → CounterInv s') ∧
    (s.block_comment_counter ≠ 0 → s'.block_comment_counter = 0 →
      s'.scan_mode = .Normal) := by
  obtain ⟨tk, m, b, eb, k⟩ := s
  cases m <;> simp only [scanStep] at h
  case Normal => injection h with h; subst h; exact normal_scan_inv _ c
  case StringLiteral => injection h with h; subst h; exact string_scan_inv _ c
  case Number => exact number_scan_inv _ c s' h
  case PossibleComment => injection h with h; subst h; exact check_for_comment_inv _ c
  case LineComment => injection h with h; subst h; exact line_comment_handling_inv _ c
  case BlockComment => injection h with h; subst h; exact block_comment_handling_inv _ c
  case Other => injection h with h; subst h; exact identifier_and_keyword_scan_inv _ c
  case Escape => exact escape_scan_inv _ c s' h

/-- `CounterInv` holds along any successful scan. -/
theorem scanChars_counter :
    ∀ (source : List Char) (s s' : Scanner), CounterInv s →
      scanChars s source = .ok s' → CounterInv s'
  | [], _, _, hinv, h => by
      unfold scanChars at h
      injection h with h
      exact h ▸ hinv
  | c :: rest, s, s', hinv, h => by
      unfold scanChars at h
      split at h
      · next s1 hstep =>
          exact scanChars_counter rest s1 s'
            ((scanStep_counter s c s1 hstep).1 hinv) h
      · simp at h

/-- `string_scan` only appends to the token list. -/
theorem string_scan_tokens_front (s : Scanner) (c : Char) (t : List Token) :
    string_scan { s with tokens := t ++ s.tokens } c =
      { string_scan s c with tokens := t ++ (string_scan s c).tokens } := by
  unfold string_scan
  dsimp only
  split_ifs <;> simp [List.append_assoc]

/-- `eval_buffer` only appends to the token list (the token pushed
depends only on the character buffer). -/
theorem eval_buffer_tokens_front (s : Scanner) (t : List Token) :
    eval_buffer { s with tokens := t ++ s.tokens } =
      { eval_buffer s with tokens := t ++ (eval_buffer s).tokens } := by
  unfold eval_buffer pushTok
  dsimp only
  simp [List.append_assoc]

/-- `identifier_and_keyword_scan` only appends to the token list. -/
theorem identifier_and_keyword_scan_tokens_front (s : Scanner) (c : Char)
    (t : List Token) :
    identifier_and_keyword_scan { s with tokens := t ++ s.tokens } c =
      { identifier_and_keyword_scan s c with
          tokens := t ++ (identifier_and_keyword_scan s c).tokens } := by
  unfold identifier_and_keyword_scan
  dsimp only
  split_ifs
  · rfl
  · rw [eval_buffer_tokens_front]
    exact (normal_scan_shape { eval_buffer s with scan_mode := .Normal } c t).2.2

/-- `check_for_comment` only appends to the token list. -/
theorem check_for_comment_tokens_front (s : Scanner) (c : Char) (t : List Token) :
    check_for_comment { s with tokens := t ++ s.tokens } c =
      { check_for_comment s c with tokens := t ++ (check_for_comment s c).tokens } := by
  unfold check_for_comment pushTok
  dsimp only
  split_ifs <;> simp [List.append_assoc]

/-- `line_comment_handling` leaves the token list alone. -/
theorem line_comment_handling_tokens_front (s : Scanner) (c : Char) (t : List Token) :
    line_comment_handling { s with tokens := t ++ s.tokens } c =
      { line_comment_handling s c with
          tokens := t ++ (line_comment_handling s c).tokens } := by
  unfold line_comment_handling
  dsimp only
  split_ifs <;> rfl

/-- `block_comment_handling` leaves the token list alone. -/
theorem block_comment_handling_tokens_front (s : Scanner) (c : Char) (t : List Token) :
    block_comment_handling { s with tokens := t ++ s.tokens } c =
      { block_comment_handling s c with
          tokens := t ++ (block_comment_handling s c).tokens } := by
  simp only [block_comment_handling]
  split_ifs <;> rfl

/-- `number_scan` only appends to the token list. -/
theorem number_scan_tokens_front (s : Scanner) (c : Char) (t : List Token) :
    number_scan { s with tokens := t ++ s.tokens } c =
      (number_scan s c).map fun r => { r with tokens := t ++ r.tokens } := by
  unfold number_scan
  dsimp only
  by_cases hd : c.isDigit
  · simp [if_pos hd, Except.map]
  · simp only [if_neg hd]
    cases heq : bigIntFromStr s.buffer with
    | none => simp only [heq]; rfl
    | some n =>
        simp only [heq, Except.map]
        refine congrArg Except.ok ?_
        have hs := (normal_scan_shape
          { s with tokens := s.tokens ++ [Token.Number n], buffer := [],
                   scan_mode := .Normal } c t).2.2
        rw [show ((t ++ s.tokens) ++ [Token.Number n] : List Token) =
              t ++ (s.tokens ++ [Token.Number n]) from List.append_assoc t _ _]
        exact hs

/-- One scanner step only appends to the token list: running the step
with extra tokens prepended commutes with prepending them afterwards. -/
theorem scanStep_tokens_front (s : Scanner) (c : Char) (t : List Token) :
    scanStep { s with tokens := t ++ s.tokens } c =
      (scanStep s c).map fun r => { r with tokens := t ++ r.tokens } := by
  obtain ⟨tk, m, b, eb, k⟩ := s
  cases m <;> simp only [scanStep]
  case Normal =>
      exact congrArg Except.ok ((normal_scan_shape ⟨tk, .Normal, b, eb, k⟩ c t).2.2)
  case StringLiteral =>
      exact congrArg Except.ok (string_scan_tokens_front ⟨tk, .StringLiteral, b, eb, k⟩ c t)
  case Number => exact number_scan_tokens_front ⟨tk, .Number, b, eb, k⟩ c t
  case PossibleComment =>
      exact congrArg Except.ok
        (check_for_comment_tokens_front ⟨tk, .PossibleComment, b, eb, k⟩ c t)
  case LineComment =>
      exact congrArg Except.ok
        (line_comment_handling_tokens_front ⟨tk, .LineComment, b, eb, k⟩ c t)
  case BlockComment =>
      exact congrArg Except.ok
        (block_comment_handling_tokens_front ⟨tk, .BlockComment, b, eb, k⟩ c t)
  case Other =>
      exact congrArg Except.ok
        (identifier_and_keyword_scan_tokens_front ⟨tk, .Other, b, eb, k⟩ c t)
  case Escape => exact (escape_scan_shape ⟨tk, .Escape, b, eb, k⟩ c t).1

/-- A whole scan only appends to the token list. -/
theorem scanChars_tokens_front (source : List Char) :
    ∀ (s : Scanner) (t : List Token),
      scanChars { s with tokens := t ++ s.tokens } source =
        (scanChars s source).map fun r => { r with tokens := t ++ r.tokens } := by
  induction source with
  | nil => intro s t; rfl
  | cons c rest ih =>
      intro s t
      simp only [scanChars]
      rw [scanStep_tokens_front]
      cases hstep : scanStep s c with
      | error e => rfl
      | ok s1 =>
          simp only [Except.map]
          exact ih s1 t

/-- C1: the claim is false of the code, at the claimed input itself.
Scanning the source text `x := 5;` does not reach the parser at all: the
scanner aborts with the `Number parsing failed` panic, because
`eval_buffer` never clears the identifier buffer, so the digit `5` is
appended to the leftover buffer `x` and `x5` fails to parse as a number.
Moreover the scanner has no rule for `:=`: the two characters scan to
`Colon` followed by `Operator Equals`, and no `Token.Assignment` is ever
produced. -/
theorem scan_assign_source_fails :
    scanChars Scanner.new ['x', ' ', ':', '=', ' ', '5', ';'] =
      .error .numberParseFailed ∧
    scanChars Scanner.new [':', '='] =
      .ok { Scanner.new with tokens := [.Colon, .Operator .Equals] } :=
  ⟨rfl, rfl⟩

/-- C2: the claim is false of the code.  `Parser::parse_expression` is a
stub: it returns `Singleton(Int(1))` for every token slice — including
the empty slice and every malformed shape, so it never raises a syntax
error, and a one-operand slice such as `[Number 5]` does not yield
`Singleton` of that operand. -/
theorem parse_expression_is_constant (ts : List Token) :
    parse_expression ts = .Singleton (.Int 1) :=
  rfl

/-- Witness for C2 at the one-operand slice `[Number 5]`, which the
claim says must parse to `Singleton(Int(5))`. -/
theorem parse_expression_is_constant_witness :
    parse_expression [Token.Number 5] = .Singleton (.Int 1) :=
  parse_expression_is_constant [Token.Number 5]

/-- C3: the claim is false of the code.  The Declaration sub-machine
rejects the type keyword `bool` (only `int` and `string` are accepted at
buffer position 2), and its arm for longer buffers does nothing at all,
so a terminating `;` never emits a `Declaration` statement: after
consuming `var x : int ;` the parser has emitted no statement and is
still inside the declaration sub-machine. -/
theorem variable_definition_never_emits :
    variable_definition_parse
        { ParserState.new with buffer := [.Identifier "x", .Colon] }
        (.KeyWord .Bool) =
      .error (.expectedTypeSignature (.KeyWord .Bool)) ∧
    (parseTokens ParserState.new .normal
        [.KeyWord .Var, .Identifier "x", .Colon, .KeyWord .Int, .Semicolon]).map
        (fun r => (r.1.statements, r.2)) =
      .ok ([], .variableDefinition) :=
  ⟨rfl, rfl⟩

/-- C4: the claim is false of the code.  Scanning the literal source
`"A"` does decode the escape to `A` and appends it to the buffer,
but `escape_scan` neither clears the escape buffer nor returns to
`StringLiteral` mode after a complete `\u` escape, so the closing quote
is handed to the escape scanner again and the scan aborts with the
`not a valid hex digit` panic instead of emitting `StringLiteral("A")`. -/
theorem unicode_escape_literal_fails :
    scanChars Scanner.new
        [quoteChar, backslashChar, 'u', '0', '0', '4', '1', quoteChar] =
      .error (.notValidUnicodeHexDigit 'u' quoteChar) ∧
    scanChars Scanner.new [quoteChar, backslashChar, 'u', '0', '0', '4', '1'] =
      .ok { Scanner.new with scan_mode := .Escape, buffer := ['A'],
                             escape_buffer := ['u', '0', '0', '4', '1'] } :=
  ⟨rfl, rfl⟩

/-- C5: the claim is false of the code.  `Scanner::scan` simply runs out
of characters and returns the tokens pushed so far: on the input `12`
(scanner left in `Number` mode with buffer `12`) it returns no token and
no error, and on the unterminated string `"abc` (scanner left in
`StringLiteral` mode) it likewise returns successfully with no token —
the buffered content is silently discarded in both cases. -/
theorem eof_discards_buffered_input :
    (scan Scanner.new ['1', '2']).map Prod.fst = .ok [] ∧
    (scan Scanner.new [quoteChar, 'a', 'b', 'c']).map Prod.fst = .ok [] :=
  ⟨rfl, rfl⟩

/-- C6 counterexample: on the source `;`, the first invocation of `scan`
returns `[Semicolon]` but a second invocation on the same scanner
returns `[Semicolon, Semicolon]` — `scan` appends to the retained token
vector, so repeated invocations on identical input are not identical. -/
theorem scan_rescan_not_identical :
    (scan Scanner.new [';']).map Prod.fst = .ok [.Semicolon] ∧
    ((scan Scanner.new [';']).bind fun r => (scan r.2 [';']).map Prod.fst) =
      .ok [.Semicolon, .Semicolon] ∧
    ([Token.Semicolon] : List Token) ≠ [.Semicolon, .Semicolon] :=
  ⟨rfl, rfl, by decide⟩

/-- C6 (amended): token production is deterministic, but `scan` appends
to the scanner's retained token vector, so a second invocation on the
same scanner does not return an identical sequence: whenever the first
scan ends back in the fresh configuration (mode `Normal`, empty buffers,
counter 0), the second invocation of the character loop returns the
first token sequence appended to itself.  Identical sequences are
obtained only by using a fresh scanner per invocation. -/
theorem scan_rescan_appends (source : List Char) (s1 : Scanner)
    (h : scanChars Scanner.new source = .ok s1)
    (hm : s1.scan_mode = .Normal) (hb : s1.buffer = [])
    (he : s1.escape_buffer = []) (hc : s1.block_comment_counter = 0) :
    scanChars s1 source = .ok { s1 with tokens := s1.tokens ++ s1.tokens } := by
  have key := scanChars_tokens_front source Scanner.new s1.tokens
  rw [h] at key
  have hs1 : ({ Scanner.new with tokens := s1.tokens ++ Scanner.new.tokens } : Scanner)
      = s1 := by
    obtain ⟨tk, m, b, eb, k⟩ := s1
    simp only at hm hb he hc
    subst hm hb he hc
    simp [Scanner.new]
  rw [hs1] at key
  exact key

/-- Witness for C6's amended statement: rescanning `;` on the used
scanner duplicates the `Semicolon` token. -/
theorem scan_rescan_appends_witness :
    scanChars Scanner.new [';'] = .ok { Scanner.new with tokens := [.Semicolon] } ∧
    scanChars { Scanner.new with tokens := [.Semicolon] } [';'] =
      .ok { Scanner.new with tokens := [.Semicolon, .Semicolon] } :=
  ⟨rfl, scan_rescan_appends [';'] { Scanner.new with tokens := [.Semicolon] }
    rfl rfl rfl rfl rfl⟩

/-- C7: the claim is false of the code.  The nested input `/*/**/*/` is
indeed consumed entirely as one nested comment (returning to `Normal`
with counter 0 and no token), but the counter does not decrement on
every `*/`: `block_comment_handling` consumes the comment characters in
disjoint pairs, a `**` pair annihilates, and so after `/***/` the
scanner is still in `BlockComment` mode with counter 1 even though the
input ends with `*/`. -/
theorem block_comment_pairing :
    scanChars Scanner.new ['/', '*', '/', '*', '*', '/', '*', '/'] =
      .ok Scanner.new ∧
    scanChars Scanner.new ['/', '*', '*', '*', '/'] =
      .ok { Scanner.new with scan_mode := .BlockComment, buffer := ['/'],
                             block_comment_counter := 1 } :=
  ⟨rfl, rfl⟩

/-- C8: every completed statement is routed by the single rule of
`handle_statement` — to the output sink when the for-loop stack is
empty, to the body of the top (last) frame otherwise — and
`expect_end_for` on `end for` pops the top frame, builds the `For`
statement and routes it by that same rule against the remaining stack,
so a closing always targets the most recently opened frame (LIFO). -/
theorem statement_routing
    (q : ParserState) (st : Statement)
    (p : ParserState) (i : String) (lo hi : Expression) (body : List Statement)
    (rest : List Frame) (h : p.for_buffer = rest ++ [(i, lo, hi, body)]) :
    (q.for_buffer = [] →
        handle_statement q st =
          { q with statements := q.statements ++ [st], buffer := [] }) ∧
    (∀ (j : String) (glo ghi : Expression) (b2 : List Statement) (r2 : List Frame),
        q.for_buffer = r2 ++ [(j, glo, ghi, b2)] →
        handle_statement q st =
          { q with for_buffer := r2 ++ [(j, glo, ghi, b2 ++ [st])], buffer := [] }) ∧
    expect_end_for p (.KeyWord .For) =
      .ok (handle_statement { p with for_buffer := rest } (.For i lo hi body),
           .expectSemicolon) := by
  refine ⟨?_, ?_, ?_⟩
  · intro hq
    unfold handle_statement
    rw [hq]
    rfl
  · intro j glo ghi b2 r2 hq
    unfold handle_statement
    rw [hq]
    simp [List.getLast?_concat, List.dropLast_concat]
  · unfold expect_end_for
    rw [h]
    simp [List.getLast?_concat, List.dropLast_concat]

/-- Witness for C8: routing at concrete states — with an empty stack a
`Read` statement goes to the sink, and closing the one open frame emits
the built `For` through the same routing. -/
theorem statement_routing_witness :
    handle_statement ParserState.new (.Read "r") =
      { ParserState.new with statements := [.Read "r"], buffer := [] } ∧
    expect_end_for
        { ParserState.new with
            for_buffer := [("i", .Singleton (.Int 1), .Singleton (.Int 1),
                            [.Read "z"])] }
        (.KeyWord .For) =
      .ok (handle_statement ParserState.new
             (.For "i" (.Singleton (.Int 1)) (.Singleton (.Int 1)) [.Read "z"]),
           .expectSemicolon) := by
  refine ⟨?_, ?_⟩
  · exact (statement_routing ParserState.new (.Read "r")
      { ParserState.new with
          for_buffer := [("i", .Singleton (.Int 1), .Singleton (.Int 1),
                          [.Read "z"])] }
      "i" (.Singleton (.Int 1)) (.Singleton (.Int 1)) [.Read "z"] [] rfl).1 rfl
  · exact (statement_routing ParserState.new (.Read "r")
      { ParserState.new with
          for_buffer := [("i", .Singleton (.Int 1), .Singleton (.Int 1),
                          [.Read "z"])] }
      "i" (.Singleton (.Int 1)) (.Singleton (.Int 1)) [.Read "z"] [] rfl).2.2

/-- C9: a second `..` in a single `for` header (the range marker already
set, i.e. nonzero, with the header buffer past the `identifier in`
prefix) is a syntax error, and `end for` with an empty for-loop stack is
a syntax error; both paths abort without emitting any statement. -/
theorem for_header_errors (p q : ParserState)
    (h1 : 2 ≤ p.buffer.length) (h2 : p.for_range_pointer ≠ 0)
    (h3 : q.for_buffer = []) :
    for_loop_parse p .Range = .error .moreThanOneRange ∧
    expect_end_for q (.KeyWord .For) = .error .endForNoLoops := by
  constructor
  · obtain ⟨n, hn⟩ : ∃ n, p.buffer.length = n + 2 :=
      ⟨p.buffer.length - 2, by omega⟩
    unfold for_loop_parse
    rw [hn]
    simp [h2]
  · unfold expect_end_for
    rw [h3]
    rfl

/-- Witness for C9 at a concrete header state `for i in 1 ..` receiving
a second `..`, and a fresh parser receiving `end for`. -/
theorem for_header_errors_witness :
    (2 ≤ ({ buffer := [.Identifier "i", .KeyWord .In, .Number 1, .Range],
            for_buffer := [], for_range_pointer := 2,
            statements := [] } : ParserState).buffer.length ∧
     ({ buffer := [.Identifier "i", .KeyWord .In, .Number 1, .Range],
        for_buffer := [], for_range_pointer := 2,
        statements := [] } : ParserState).for_range_pointer ≠ 0 ∧
     ParserState.new.for_buffer = []) ∧
    for_loop_parse
        { buffer := [.Identifier "i", .KeyWord .In, .Number 1, .Range],
          for_buffer := [], for_range_pointer := 2, statements := [] }
        .Range = .error .moreThanOneRange ∧
    expect_end_for ParserState.new (.KeyWord .For) = .error .endForNoLoops :=
  ⟨⟨by decide, by decide, rfl⟩,
   for_header_errors
     { buffer := [.Identifier "i", .KeyWord .In, .Number 1, .Range],
       for_buffer := [], for_range_pointer := 2, statements := [] }
     ParserState.new (by decide) (by decide) rfl⟩

/-- C10: in every scanner state reachable from a fresh scanner,
`BlockComment` mode implies the nesting counter is at least 1 (so the
`usize` decrement on a recognized `*/`, modelled as `Nat` subtraction,
never underflows), and in any single step the counter can only reach 0
together with the switch back to `Normal` mode. -/
theorem block_comment_counter_invariant :
    (∀ (source : List Char) (s' : Scanner),
        scanChars Scanner.new source = .ok s' →
        s'.scan_mode = .BlockComment → 1 ≤ s'.block_comment_counter) ∧
    (∀ (s : Scanner) (c : Char) (s' : Scanner), scanStep s c = .ok s' →
        s.block_comment_counter ≠ 0 → s'.block_comment_counter = 0 →
        s'.scan_mode = .Normal) := by
  constructor
  · intro source s' h
    exact scanChars_counter source Scanner.new s' (by decide) h
  · intro s c s' h
    exact (scanStep_counter s c s' h).2

/-- Witness for C10: the opener `/*` leaves a reachable `BlockComment`
state whose counter the theorem bounds below by 1, and the closing step
from that state drops the counter to 0 exactly while returning to
`Normal`. -/
theorem block_comment_counter_invariant_witness :
    (scanChars Scanner.new ['/', '*'] =
        .ok { Scanner.new with scan_mode := .BlockComment,
                               block_comment_counter := 1 } ∧
     ({ Scanner.new with scan_mode := .BlockComment,
                         block_comment_counter := 1 } : Scanner).scan_mode =
       .BlockComment) ∧
    1 ≤ ({ Scanner.new with scan_mode := .BlockComment,
                            block_comment_counter := 1 } : Scanner).block_comment_counter ∧
    ({ Scanner.new with scan_mode := .Normal,
                        block_comment_counter := 0 } : Scanner).scan_mode = .Normal :=
  ⟨⟨rfl, rfl⟩,
   block_comment_counter_invariant.1 ['/', '*'] _ rfl rfl,
   block_comment_counter_invariant.2
     { Scanner.new with scan_mode := .BlockComment, buffer := ['*'],
                        block_comment_counter := 1 }
     '/'
     { Scanner.new with scan_mode := .Normal, block_comment_counter := 0 }
     rfl (by decide) rfl⟩

end MiniPL
